import Mathlib

/-!
Shallow embedding of `resource/backend/nmpi/broker.py` (the Cypress NMPI
broker script).  Paths are modelled as lists of components of an already
normalized absolute path (what `os.path.abspath` yields, split at `/`).
The external libraries `bz2` (compression) and the remote `Client` are
modelled as parameters: `compress`/`decompress` functions and a behaviour
oracle mapping the token handed to `Client(...)` to the outcome of the
client-creation/submission attempt.  `base64` is embedded concretely.
-/

set_option autoImplicit false

namespace Broker

/-- A normalized absolute path, as its list of components. -/
abbrev Path := List String

/-- Boolean test that `p` is a leading segment of `l` (used to model both
Python `str.startswith` on character lists and path-descendant tests). -/
def leadsOf {α : Type} [BEq α] : List α → List α → Bool
  | [], _ => true
  | _ :: _, [] => false
  | a :: as, b :: bs => a == b && leadsOf as bs

/-- Python `s.startswith(pat)`. -/
def pyStartswith (s pat : String) : Bool :=
  leadsOf pat.data s.data

/-- `pat` occurs as a contiguous segment of `l`. -/
def segIn {α : Type} [BEq α] (pat : List α) : List α → Bool
  | [] => leadsOf pat []
  | b :: bs => leadsOf pat (b :: bs) || segIn pat bs

/-- Python `pat in s` (substring test), used for `archive in path`. -/
def pyContains (s pat : String) : Bool :=
  segIn pat.data s.data

/-- Python `"/".join(parts)`, as used by `os.path.relpath` to rebuild the
relative path string. -/
def joinPath : List String → String
  | [] => ""
  | [a] => a
  | a :: rest => a ++ "/" ++ joinPath rest

/-- Length of the common leading segment of two component lists, as computed
inside `os.path.relpath`. -/
def commonLen : List String → List String → Nat
  | a :: as, b :: bs => if a = b then commonLen as bs + 1 else 0
  | _, _ => 0

/-- `os.path.relpath(p, base)` on normalized absolute component lists: drop
the common leading segment, prepend one `..` per remaining base component,
join with `/` (empty relative list yields `.`). -/
def relpath (p base : Path) : String :=
  if (List.replicate (base.length - commonLen p base) ".." ++ p.drop (commonLen p base)).isEmpty
  then "."
  else joinPath (List.replicate (base.length - commonLen p base) ".." ++ p.drop (commonLen p base))

/-- Contents and `st_mode` of a regular file in the modelled file system. -/
structure FileData where
  content : List Nat
  mode : Nat
deriving DecidableEq

/-- The local file system: an association of paths to regular files. -/
abbrev FS := List (Path × FileData)

/-- `os.path.isfile`. -/
def isfile (fs : FS) (p : Path) : Bool :=
  (List.lookup p fs).isSome

/-- The base64 alphabet of `base64.b64encode`. -/
def b64alphabet : List Char :=
  "ABCDEFGHIJKLMNOPQRSTUVWXYZabcdefghijklmnopqrstuvwxyz0123456789+/".data

/-- Character of a six-bit group. -/
def b64char (n : Nat) : Char :=
  b64alphabet.getD n '?'

/-- Numeric value of a base64 character. -/
def b64val (c : Char) : Nat :=
  b64alphabet.indexOf c

/-- `base64.b64encode` on a byte list: three bytes become four characters,
with `=` padding for a trailing group of one or two bytes. -/
def b64encodeBytes : List Nat → List Char
  | [] => []
  | [a] => [b64char (a / 4), b64char (a % 4 * 16), '=', '=']
  | [a, b] => [b64char (a / 4), b64char (a % 4 * 16 + b / 16), b64char (b % 16 * 4), '=']
  | a :: b :: c :: rest =>
      b64char (a / 4) :: b64char (a % 4 * 16 + b / 16) ::
      b64char (b % 16 * 4 + c / 64) :: b64char (c % 64) :: b64encodeBytes rest

/-- `base64.b64decode` on a character list produced by `b64encodeBytes`. -/
def b64decodeChars : List Char → List Nat
  | c0 :: c1 :: c2 :: c3 :: rest =>
      if c2 = '=' then [b64val c0 * 4 + b64val c1 / 16]
      else if c3 = '=' then
        [b64val c0 * 4 + b64val c1 / 16, b64val c1 % 16 * 16 + b64val c2 / 4]
      else
        (b64val c0 * 4 + b64val c1 / 16) ::
        (b64val c1 % 16 * 16 + b64val c2 / 4) ::
        (b64val c2 % 4 * 64 + b64val c3) :: b64decodeChars rest
  | _ => []

/-- Content written by the companion script's `extract` routine (broker.py
lines 145-151): `bz2.decompress(base64.b64decode(data))`.  `decompress`
stands for `bz2.decompress`. -/
def extractContent (decompress : List Nat → List Nat) (data : List Char) : List Nat :=
  decompress (b64decodeChars data)

/-- Effect of `os.chmod(filename, mode)` in the companion script's `extract`
routine (broker.py line 151): the kernel keeps only the low twelve
permission bits of the given mode. -/
def chmodMode (m : Nat) : Nat := m % 4096

/-- One `extract(...)` line generated into the companion script: relative
path inside the bundle, the recorded `st_mode`, and the base64 text of the
bz2-compressed content (broker.py lines 94-101). -/
structure ExtractInstr where
  tar_filename : String
  mode : Nat
  payload : List Char
deriving DecidableEq

/-- `file_script(filename, tar_filename, execute)` (broker.py lines 94-101):
returns no instruction when `filename` is not a regular file, otherwise an
extract instruction carrying the file's mode and its compressed, base64
encoded content.  `compress` stands for `bz2.compress`; the `execute` flag
is accepted and unused, as in the source. -/
def file_script (compress : List Nat → List Nat) (fs : FS)
    (filename : Path) (tar_filename : String) (_execute : Bool) : Option ExtractInstr :=
  match List.lookup filename fs with
  | none => none
  | some fd => some ⟨tar_filename, fd.mode, b64encodeBytes (compress fd.content)⟩

/-- The exception message raised by the bundling loop. -/
def escapeMsg : String :=
  "Base directory must be a parent directory of all specified files!"

/-- The file bundling loop (broker.py lines 186-194): for each path, its
path relative to `base` is computed; if that string starts with `..` an
exception is raised, otherwise `file_script` may contribute an extract
instruction. -/
def bundleFiles (compress : List Nat → List Nat) (fs : FS) (base : Path)
    (executable : Path) : List Path → Except String (List ExtractInstr)
  | [] => .ok []
  | f :: rest =>
      if pyStartswith (relpath f base) ".." then .error escapeMsg
      else
        match bundleFiles compress fs base executable rest with
        | .error m => .error m
        | .ok instrs =>
            .ok ((file_script compress fs f (relpath f base) (f == executable)).toList ++ instrs)

/-- Argument rewriting (broker.py lines 196-201): a token that resolves to
an existing regular file is replaced by its path relative to `base`; any
other token passes through unchanged.  `resolveToken` models
`os.path.abspath` for an already normalized token string. -/
def splitSlash : List Char → List Char → List String
  | [], acc => [String.mk acc.reverse]
  | c :: cs, acc =>
      if c = '/' then String.mk acc.reverse :: splitSlash cs []
      else splitSlash cs (c :: acc)

def resolveToken (cwd : Path) (tok : String) : Path :=
  if pyStartswith tok "/" then (splitSlash tok.data []).filter (fun c => c ≠ "")
  else cwd ++ (splitSlash tok.data []).filter (fun c => c ≠ "")

/-- Rewrite of one `--args` token (broker.py lines 197-201). -/
def rewriteArg (fs : FS) (base cwd : Path) (tok : String) : String :=
  if isfile fs (resolveToken cwd tok) then relpath (resolveToken cwd tok) base
  else tok

/-- Rewrite of the whole `--args` list (broker.py lines 196-201). -/
def rewriteArgs (fs : FS) (base cwd : Path) (toks : List String) : List String :=
  toks.map (rewriteArg fs base cwd)

/-- The persisted `~/.nmpi_config` contents (broker.py lines 212-232). -/
structure Config where
  collab_id : String
  username : String
  token : Option String
deriving DecidableEq

/-- Externally observable events of one run: client creation with the token
passed to `Client(...)`, a write of the configuration file, the
`submit_job` call, one `job_status` poll, and the result download. -/
inductive Ev where
  | clientCreate (token : Option String)
  | configWrite (cfg : Config)
  | submitCall
  | pollCall
  | downloadCall
deriving DecidableEq

/-- Outcome of one iteration of the submission loop, as decided by the
remote side: client creation raised, `submit_job` raised (after the client
with token `clientToken` was created), or submission succeeded. -/
inductive AttemptResult where
  | ok (clientToken : String) (jobId : String)
  | clientFail
  | submitFail (clientToken : String)

/-- `true` on the two raising outcomes. -/
def isFail : AttemptResult → Bool
  | .ok _ _ => false
  | _ => true

/-- One iteration of the `while True` submission loop body (broker.py lines
247-269): create the client with `tok` (may raise); on success store the
client's token into the config, write the config file, then call
`submit_job` (may raise).  Returns the events, the in-memory config after
the iteration, and the result. -/
def attemptRun (cfg : Config) (tok : Option String) (res : AttemptResult) :
    List Ev × Config × Except Unit String :=
  match res with
  | .clientFail => ([.clientCreate tok], cfg, .error ())
  | .submitFail t =>
      ([.clientCreate tok, .configWrite { cfg with token := some t }, .submitCall],
       { cfg with token := some t }, .error ())
  | .ok t jid =>
      ([.clientCreate tok, .configWrite { cfg with token := some t }, .submitCall],
       { cfg with token := some t }, .ok jid)

/-- The submission loop (broker.py lines 235-276): start from the cached
token; on an exception, if a cached token was supplied, discard it and run
one more iteration with token `None`; otherwise re-raise. -/
def submitLoop (cfg : Config) (beh : Option String → AttemptResult) :
    List Ev × Config × Except Unit String :=
  match attemptRun cfg cfg.token (beh cfg.token) with
  | (evs, cfg1, Except.ok jid) => (evs, cfg1, Except.ok jid)
  | (evs, cfg1, Except.error _) =>
      match cfg.token with
      | none => (evs, cfg1, Except.error ())
      | some _ =>
          let second := attemptRun cfg1 none (beh none)
          (evs ++ second.1, second.2.1, second.2.2)

/-- Number of client creations (= submission-loop iterations) in a trace. -/
def attemptsOf (evs : List Ev) : Nat :=
  (evs.filter fun e => match e with | .clientCreate _ => true | _ => false).length

/-- The configuration-file writes of a trace, in order. -/
def writesOf (evs : List Ev) : List Config :=
  evs.filterMap fun e => match e with | .configWrite c => some c | _ => none

/-- Every configuration write in the trace is immediately followed by a
`submit_job` call. -/
def writesPrecedeSubmit : List Ev → Bool
  | [] => true
  | .configWrite _ :: rest =>
      (match rest with
       | .submitCall :: _ => writesPrecedeSubmit rest
       | _ => false)
  | _ :: rest => writesPrecedeSubmit rest

/-- The status polling loop (broker.py lines 279-287), fueled: each unit of
fuel permits one `job_status` query; the loop stops as soon as the queried
status is `error` or `finished`, returning the number of queries issued and
the final status, and otherwise polls again. -/
def pollLoop (statuses : Nat → String) : Nat → Nat → Option (Nat × String)
  | 0, _ => none
  | fuel + 1, i =>
      let s := statuses i
      if s = "error" ∨ s = "finished" then some (i + 1, s)
      else pollLoop statuses fuel (i + 1)

/-- Archive member filter on extraction (broker.py lines 303-306): keep
exactly the members whose name starts with the temporary-directory name. -/
def extractMembers (tmpdir : String) (members : List String) : List String :=
  members.filter (fun m => pyStartswith m tmpdir)

/-- Member names of the archive built by the companion script's `cleanup`
(broker.py lines 176-180): `tar.add(dir, arcname=tarname)` records the root
under `tarname` and every entry under `tarname/...`. -/
def archiveMembers (tarname : String) (relEntries : List String) : List String :=
  tarname :: relEntries.map (fun e => tarname ++ "/" ++ e)

/-- Remote-side inputs to the retrieval phase: the `output_data` URLs, the
members of the downloaded archive, the entries listed in the extracted
temporary directory, which of them are directories, which of them fail to
copy, and the remote executable's own return code (visible only inside the
captured output, never used by the broker). -/
structure RetrInputs where
  outputUrls : List String
  members : List String
  topEntries : List String
  dirs : List String
  copyFails : List String
  remoteReturnCode : Int

/-- The retrieval phase (broker.py lines 290-322): find an output item whose
URL contains `<tmpdir>.tar.bz2`; if found, extract only members prefixed by
`tmpdir` and copy every non-directory entry, silently skipping entries whose
copy raises.  Returns (found, extracted members, copied entries). -/
def retrieve (tmpdir : String) (r : RetrInputs) : Bool × List String × List String :=
  match r.outputUrls.find? (fun u => pyContains u (tmpdir ++ ".tar.bz2")) with
  | none => (false, [], [])
  | some _ =>
      (true, extractMembers tmpdir r.members,
       r.topEntries.filter (fun e => !(r.dirs.contains e) && !(r.copyFails.contains e)))

/-- Final fate of one run. -/
inductive Outcome where
  | bundleError (msg : String)
  | submitError
  | noTermination
  | done (finalStatus : String) (copied : List String) (exit : Nat)
deriving DecidableEq

/-- Exit code of an outcome, when the run reached `sys.exit` normally. -/
def exitOf : Outcome → Option Nat
  | .done _ _ e => some e
  | _ => none

/-- Command line of the tool (broker.py lines 66-83), with paths already
resolved to normalized absolute component lists. -/
structure Args where
  executable : Path
  files : List Path
  base : Path
  argTokens : List String
  platform : String
  wafer : Int

/-- The whole run of broker.py, strictly sequential: bundling (lines
186-207, raising before any network event on a path escape), the submission
loop (lines 235-276), status polling (lines 279-287), result retrieval
(lines 290-322) and the final `sys.exit(0 if status == "finished" else 1)`
(line 337).  Returns the event trace and the outcome. -/
def runBroker (compress : List Nat → List Nat) (a : Args) (fs : FS) (cfg : Config)
    (beh : Option String → AttemptResult) (statuses : Nat → String)
    (fuel : Nat) (tmpdir : String) (r : RetrInputs) : List Ev × Outcome :=
  match bundleFiles compress fs a.base a.executable (a.files ++ [a.executable]) with
  | .error msg => ([], .bundleError msg)
  | .ok _manifest =>
      match submitLoop cfg beh with
      | (evs, _cfg1, Except.error _) => (evs, .submitError)
      | (evs, _cfg1, Except.ok _jid) =>
          match pollLoop statuses fuel 0 with
          | none => (evs ++ List.replicate fuel .pollCall, .noTermination)
          | some (polls, st) =>
              let rr := retrieve tmpdir r
              (evs ++ List.replicate polls .pollCall ++
                 (if rr.1 then [.downloadCall] else []),
               .done st rr.2.2 (if st = "finished" then 0 else 1))

/-! Concrete fixtures used by the witness theorems and scenarios. -/

/-- Identity stand-in for `bz2.compress` in concrete scenarios. -/
def idBytes : List Nat → List Nat := fun b => b

/-- File system of the end-to-end scenario: `/proj/run.sh` (mode 0o755) and
`/proj/data.txt` (mode 0o644). -/
def fsEx : FS :=
  [(["proj", "data.txt"], ⟨[104, 105], 420⟩), (["proj", "run.sh"], ⟨[35, 33], 493⟩)]

/-- Command line of the end-to-end scenario. -/
def argsEx : Args :=
  ⟨["proj", "run.sh"], [["proj", "data.txt"]], ["proj"], ["data.txt"], "NM-MC1", 0⟩

/-- Command line whose executable lies outside the base directory. -/
def argsEscape : Args :=
  ⟨["other", "x"], [], ["proj"], [], "NM-MC1", 0⟩

/-- The scripted status sequence of the polling scenario. -/
def scripted : Nat → String := fun i =>
  ["queued", "running", "running", "finished"].getD i "queued"

/-- A configuration holding a cached token. -/
def cfgEx : Config := ⟨"collab", "user", some "OLDTOK"⟩

/-- A configuration without a cached token. -/
def cfgNoTok : Config := ⟨"collab", "user", none⟩

/-- Client behaviour: raise from `submit_job` when any token is cached,
succeed with a fresh token when token is `None`. -/
def behRetry : Option String → AttemptResult := fun t =>
  match t with
  | some _ => .submitFail "MIDTOK"
  | none => .ok "NEWTOK" "42"

/-- Client behaviour: `submit_job` always raises (client creation works). -/
def behFailSubmit : Option String → AttemptResult := fun _ => .submitFail "T1"

/-- Client behaviour: every attempt succeeds. -/
def behOk : Option String → AttemptResult := fun _ => .ok "TOK" "7"

/-- Client behaviour: client creation always raises. -/
def behClientFail : Option String → AttemptResult := fun _ => .clientFail

/-- Retrieval-phase inputs of the concrete scenarios. -/
def retrEx : RetrInputs := ⟨["https://x/abc.tar.bz2"], [], [], [], [], 0⟩

/-- Alternative retrieval-phase inputs: copy failures and a nonzero remote
return code. -/
def retrEx2 : RetrInputs :=
  ⟨["https://x/abc.tar.bz2"], ["cypress_t/out"], ["out"], [], ["out"], 3⟩

/-! Helper lemmas. -/

theorem leadsOf_self {α : Type} [BEq α] [LawfulBEq α] : ∀ l : List α, leadsOf l l = true
  | [] => rfl
  | a :: as => by simp [leadsOf, leadsOf_self as]

theorem leadsOf_append_self {α : Type} [BEq α] [LawfulBEq α] :
    ∀ (p rest : List α), leadsOf p (p ++ rest) = true
  | [], _ => rfl
  | a :: as, rest => by simp [leadsOf, leadsOf_append_self as rest]

theorem pyStartswith_append (s t : String) : pyStartswith (s ++ t) s = true := by
  unfold pyStartswith
  rw [String.data_append]
  exact leadsOf_append_self _ _

theorem pyStartswith_self (s : String) : pyStartswith s s = true :=
  leadsOf_self s.data

theorem b64val_b64char : ∀ n < 64, b64val (b64char n) = n := by decide

theorem b64char_ne_pad : ∀ n < 64, b64char n ≠ '=' := by decide

theorem b64_roundtrip : ∀ bs : List Nat, (∀ x ∈ bs, x < 256) →
    b64decodeChars (b64encodeBytes bs) = bs
  | [], _ => rfl
  | [a], h => by
      have ha : a < 256 := h a (by simp)
      have h1 : a / 4 < 64 := by omega
      have h2 : a % 4 * 16 < 64 := by omega
      simp only [b64encodeBytes, b64decodeChars, eq_self_iff_true, if_true]
      rw [b64val_b64char _ h1, b64val_b64char _ h2]
      simp only [List.cons.injEq, and_true]
      omega
  | [a, b], h => by
      have ha : a < 256 := h a (by simp)
      have hb : b < 256 := h b (by simp)
      have h1 : a / 4 < 64 := by omega
      have h2 : a % 4 * 16 + b / 16 < 64 := by omega
      have h3 : b % 16 * 4 < 64 := by omega
      have hne : b64char (b % 16 * 4) ≠ '=' := b64char_ne_pad _ h3
      simp only [b64encodeBytes, b64decodeChars, if_neg hne, eq_self_iff_true, if_true]
      rw [b64val_b64char _ h1, b64val_b64char _ h2, b64val_b64char _ h3]
      simp only [List.cons.injEq]
      refine ⟨by omega, by omega, trivial⟩
  | a :: b :: c :: rest, h => by
      have ha : a < 256 := h a (by simp)
      have hb : b < 256 := h b (by simp)
      have hc : c < 256 := h c (by simp)
      have h1 : a / 4 < 64 := by omega
      have h2 : a % 4 * 16 + b / 16 < 64 := by omega
      have h3 : b % 16 * 4 + c / 64 < 64 := by omega
      have h4 : c % 64 < 64 := by omega
      have hne3 : b64char (b % 16 * 4 + c / 64) ≠ '=' := b64char_ne_pad _ h3
      have hne4 : b64char (c % 64) ≠ '=' := b64char_ne_pad _ h4
      have ih := b64_roundtrip rest (fun x hx => h x (by simp [hx]))
      simp only [b64encodeBytes, b64decodeChars, if_neg hne3, if_neg hne4]
      rw [b64val_b64char _ h1, b64val_b64char _ h2, b64val_b64char _ h3,
        b64val_b64char _ h4, ih]
      simp only [List.cons.injEq, eq_self_iff_true, and_true]
      refine ⟨by omega, by omega, by omega⟩

theorem commonLen_nil_right (p : List String) : commonLen p [] = 0 := by
  cases p <;> rfl

theorem commonLen_le : ∀ p base : List String, commonLen p base ≤ base.length
  | _, [] => by simp [commonLen_nil_right]
  | [], _ :: _ => by simp [commonLen]
  | a :: as, b :: bs => by
      by_cases hab : a = b
      · simpa [commonLen, hab] using commonLen_le as bs
      · simp [commonLen, hab]

theorem leadsOf_eq_commonLen : ∀ base p : List String,
    leadsOf base p = true ↔ commonLen p base = base.length
  | [], p => by simp [leadsOf, commonLen_nil_right]
  | b :: bs, [] => by simp [leadsOf, commonLen]
  | b :: bs, a :: as => by
      by_cases hab : a = b
      · simp [leadsOf, commonLen, hab, leadsOf_eq_commonLen bs as]
      · have hne : ¬(b == a) = true := by simp [Ne.symm hab]
        simp [leadsOf, commonLen, hab, hne]

theorem pyStartswith_join_dotdot (rest : List String) :
    pyStartswith (joinPath (".." :: rest)) ".." = true := by
  cases rest with
  | nil => decide
  | cons x xs =>
      show pyStartswith (".." ++ "/" ++ joinPath (x :: xs)) ".." = true
      rw [String.append_assoc]
      exact pyStartswith_append _ _

theorem relpath_dotdot_of_not_descendant {p base : Path}
    (h : leadsOf base p = false) : pyStartswith (relpath p base) ".." = true := by
  have hle := commonLen_le p base
  have hne : commonLen p base ≠ base.length := by
    intro he
    rw [← leadsOf_eq_commonLen] at he
    rw [h] at he
    exact Bool.false_ne_true he
  have hlt : commonLen p base < base.length := lt_of_le_of_ne hle hne
  unfold relpath
  have hrep : base.length - commonLen p base =
      (base.length - commonLen p base - 1) + 1 := by omega
  rw [hrep, List.replicate_succ]
  simp only [List.cons_append, List.isEmpty_cons, Bool.false_eq_true, if_false]
  exact pyStartswith_join_dotdot _

theorem bundleFiles_error_of_mem (compress : List Nat → List Nat) (fs : FS)
    (base exe : Path) :
    ∀ (l : List Path) (f : Path), f ∈ l →
      pyStartswith (relpath f base) ".." = true →
      bundleFiles compress fs base exe l = .error escapeMsg
  | [], f, hmem, _ => absurd hmem (List.not_mem_nil f)
  | g :: rest, f, hmem, hchk => by
      by_cases hg : pyStartswith (relpath g base) ".." = true
      · simp [bundleFiles, hg]
      · have hf : f ∈ rest := by
          rcases List.mem_cons.mp hmem with he | ht
          · exact absurd (he ▸ hchk) hg
          · exact ht
        have ih := bundleFiles_error_of_mem compress fs base exe rest f hf hchk
        simp [bundleFiles, hg, ih]

theorem bundleFiles_skip (compress : List Nat → List Nat) (fs : FS)
    (base exe : Path) (f : Path)
    (hc : pyStartswith (relpath f base) ".." = false)
    (hnf : isfile fs f = false) :
    ∀ pre post : List Path,
      bundleFiles compress fs base exe (pre ++ f :: post) =
      bundleFiles compress fs base exe (pre ++ post)
  | [], post => by
      have hfs : file_script compress fs f (relpath f base) (f == exe) = none := by
        unfold file_script
        unfold isfile at hnf
        cases hlk : List.lookup f fs with
        | none => rfl
        | some fd => rw [hlk] at hnf; simp at hnf
      simp only [List.nil_append, bundleFiles, hc, Bool.false_eq_true, if_false, hfs,
        Option.toList_none]
      cases bundleFiles compress fs base exe post <;> simp
  | g :: pre, post => by
      have ih := bundleFiles_skip compress fs base exe f hc hnf pre post
      by_cases hg : pyStartswith (relpath g base) ".." = true
      · simp [bundleFiles, hg]
      · simp [bundleFiles, hg, ih]

/-! Claim theorems. -/

/-- Claim C1: every input path supplied via `--executable` or `--files` that
is not a descendant of the `--base` directory makes the run raise the fatal
path-escape error during bundling, with an empty event trace: no client
creation, submission, poll or download is attempted. -/
theorem c1_path_escape_before_network
    (compress : List Nat → List Nat) (a : Args) (fs : FS) (cfg : Config)
    (beh : Option String → AttemptResult) (statuses : Nat → String)
    (fuel : Nat) (tmpdir : String) (r : RetrInputs) (f : Path)
    (hmem : f ∈ a.files ++ [a.executable])
    (hesc : leadsOf a.base f = false) :
    runBroker compress a fs cfg beh statuses fuel tmpdir r =
      ([], .bundleError escapeMsg) := by
  have hchk := relpath_dotdot_of_not_descendant hesc
  have hb := bundleFiles_error_of_mem compress fs a.base a.executable _ f hmem hchk
  simp [runBroker, hb]

/-- Witness for C1 at a concrete escaping executable. -/
theorem c1_witness :
    (["other", "x"] : Path) ∈ argsEscape.files ++ [argsEscape.executable] ∧
    leadsOf argsEscape.base (["other", "x"] : Path) = false ∧
    runBroker idBytes argsEscape fsEx cfgEx behOk scripted 10 "cypress_t" retrEx =
      ([], .bundleError escapeMsg) :=
  ⟨by decide, by decide,
   c1_path_escape_before_network idBytes argsEscape fsEx cfgEx behOk scripted 10
     "cypress_t" retrEx ["other", "x"] (by decide) (by decide)⟩

/-- Claim C10: the bundling loop rejects a path exactly when its
base-relative path string begins with `..`; in particular a genuine
descendant of the base whose own name begins with `..` (here
`/proj/..data`) is rejected with the path-escape error. -/
theorem c10_relpath_check (compress : List Nat → List Nat) (fs : FS)
    (base exe f : Path) :
    (bundleFiles compress fs base exe [f] = .error escapeMsg ↔
      pyStartswith (relpath f base) ".." = true) ∧
    (leadsOf (["proj"] : Path) (["proj", "..data"] : Path) = true ∧
      bundleFiles compress fs ["proj"] exe [["proj", "..data"]] = .error escapeMsg) := by
  have hc : pyStartswith (relpath ["proj", "..data"] ["proj"]) ".." = true := by decide
  refine ⟨?_, by decide, by simp [bundleFiles, hc]⟩
  by_cases h : pyStartswith (relpath f base) ".." = true
  · simp [bundleFiles, h]
  · simp [bundleFiles, h]

/-- Witness for C10 at a concrete rejected input. -/
theorem c10_witness :
    pyStartswith (relpath ["proj", "..data"] ["proj"]) ".." = true :=
  (c10_relpath_check idBytes fsEx ["proj"] ["proj", "run.sh"] ["proj", "..data"]).1.mp
    (by rfl)

/-- Counterexample to claim C9 as stated: `/proj/..d` is a descendant of
the base `/proj` and is not an existing regular file, yet the bundler
raises the path-escape error instead of silently omitting it. -/
theorem c9_counterexample :
    leadsOf (["proj"] : Path) (["proj", "..d"] : Path) = true ∧
    isfile fsEx ["proj", "..d"] = false ∧
    bundleFiles idBytes fsEx ["proj"] ["proj", "run.sh"] [["proj", "..d"]] =
      .error escapeMsg :=
  ⟨by decide, by decide, by rfl⟩

/-- Claim C9 (amended): an input path whose base-relative path does not
begin with `..` and which is not an existing regular file contributes no
extract instruction and raises no error — bundling behaves as if the path
had not been given at all. -/
theorem c9_amended_silent_omission (compress : List Nat → List Nat) (fs : FS)
    (base exe f : Path) (pre post : List Path)
    (hc : pyStartswith (relpath f base) ".." = false)
    (hnf : isfile fs f = false) :
    bundleFiles compress fs base exe (pre ++ f :: post) =
    bundleFiles compress fs base exe (pre ++ post) :=
  bundleFiles_skip compress fs base exe f hc hnf pre post

/-- Witness for C9 (amended): a missing `/proj/nosuch` is silently dropped
from the concrete scenario's bundle. -/
theorem c9_witness :
    bundleFiles idBytes fsEx ["proj"] ["proj", "run.sh"]
      ([["proj", "data.txt"]] ++ ["proj", "nosuch"] :: [["proj", "run.sh"]]) =
    bundleFiles idBytes fsEx ["proj"] ["proj", "run.sh"]
      ([["proj", "data.txt"]] ++ [["proj", "run.sh"]]) :=
  c9_amended_silent_omission idBytes fsEx ["proj"] ["proj", "run.sh"]
    ["proj", "nosuch"] [["proj", "data.txt"]] [["proj", "run.sh"]] (by decide) (by decide)

theorem pollLoop_isSome_exists (statuses : Nat → String) :
    ∀ fuel i, (pollLoop statuses fuel i).isSome = true →
      ∃ n, statuses n = "error" ∨ statuses n = "finished"
  | 0, i => by simp [pollLoop]
  | fuel + 1, i => by
      by_cases h : statuses i = "error" ∨ statuses i = "finished"
      · exact fun _ => ⟨i, h⟩
      · intro hs
        simp only [pollLoop, if_neg h] at hs
        exact pollLoop_isSome_exists statuses fuel (i + 1) hs

theorem pollLoop_isSome_of_terminal (statuses : Nat → String) :
    ∀ k i, (statuses (i + k) = "error" ∨ statuses (i + k) = "finished") →
      (pollLoop statuses (k + 1) i).isSome = true
  | 0, i => by
      intro h
      rw [Nat.add_zero] at h
      simp [pollLoop, h]
  | k + 1, i => by
      intro h
      by_cases hi : statuses i = "error" ∨ statuses i = "finished"
      · simp [pollLoop, hi]
      · have hsh : i + (k + 1) = (i + 1) + k := by omega
        rw [hsh] at h
        have ih := pollLoop_isSome_of_terminal statuses k (i + 1) h
        simp only [pollLoop, if_neg hi]
        exact ih

/-- Claim C3: the status polling loop terminates exactly when some queried
status is `error` or `finished`; a non-terminal status always leads to one
more poll; and on the scripted sequence
`["queued", "running", "running", "finished"]` the loop issues exactly four
queries and ends with status `finished`. -/
theorem c3_poll_termination :
    (∀ statuses : Nat → String,
      (∃ fuel, (pollLoop statuses fuel 0).isSome = true) ↔
        (∃ n, statuses n = "error" ∨ statuses n = "finished")) ∧
    (∀ (statuses : Nat → String) (fuel i : Nat),
      ¬(statuses i = "error" ∨ statuses i = "finished") →
      pollLoop statuses (fuel + 1) i = pollLoop statuses fuel (i + 1)) ∧
    pollLoop scripted 10 0 = some (4, "finished") := by
  refine ⟨fun statuses => ⟨?_, ?_⟩, ?_, ?_⟩
  · rintro ⟨fuel, hf⟩
    exact pollLoop_isSome_exists statuses fuel 0 hf
  · rintro ⟨n, hn⟩
    refine ⟨n + 1, ?_⟩
    have hterm : statuses (0 + n) = "error" ∨ statuses (0 + n) = "finished" := by
      simpa using hn
    exact pollLoop_isSome_of_terminal statuses n 0 hterm
  · intro statuses fuel i h
    simp [pollLoop, h]
  · rfl

/-- Witness for C3: a non-terminal scripted status leads to one more poll. -/
theorem c3_witness : pollLoop scripted 6 0 = pollLoop scripted 5 1 :=
  c3_poll_termination.2.1 scripted 5 0 (by decide)

/-- Claim C2: when the attempt with a cached token raises, the client
retries exactly once with token `None`; if that retry also raises, the run
ends with the re-raised error after exactly two attempts; if the retry
succeeds, exactly two attempts are made, the submission succeeds, and the
configuration written last contains the newly obtained token. -/
theorem c2_token_refresh (cfg : Config) (beh : Option String → AttemptResult)
    (t : String) (htok : cfg.token = some t)
    (hfail : isFail (beh (some t)) = true) :
    ((isFail (beh none) = true →
        (submitLoop cfg beh).2.2 = Except.error () ∧
        attemptsOf (submitLoop cfg beh).1 = 2) ∧
     (∀ t2 jid, beh none = .ok t2 jid →
        attemptsOf (submitLoop cfg beh).1 = 2 ∧
        (submitLoop cfg beh).2.2 = Except.ok jid ∧
        (writesOf (submitLoop cfg beh).1).getLast?.map Config.token =
          some (some t2)) ∧
     Ev.clientCreate none ∈ (submitLoop cfg beh).1) := by
  cases hb1 : beh (some t) with
  | ok t1 jid1 =>
      rw [hb1] at hfail
      simp [isFail] at hfail
  | clientFail =>
      cases hb2 : beh none with
      | ok t2 jid2 =>
          simp [submitLoop, attemptRun, htok, hb1, hb2, attemptsOf, writesOf, isFail]
      | clientFail =>
          simp [submitLoop, attemptRun, htok, hb1, hb2, attemptsOf, writesOf, isFail]
      | submitFail t2 =>
          simp [submitLoop, attemptRun, htok, hb1, hb2, attemptsOf, writesOf, isFail]
  | submitFail t1 =>
      cases hb2 : beh none with
      | ok t2 jid2 =>
          simp [submitLoop, attemptRun, htok, hb1, hb2, attemptsOf, writesOf, isFail]
      | clientFail =>
          simp [submitLoop, attemptRun, htok, hb1, hb2, attemptsOf, writesOf, isFail]
      | submitFail t2 =>
          simp [submitLoop, attemptRun, htok, hb1, hb2, attemptsOf, writesOf, isFail]

/-- Witness for C2: with a cached token, `submit_job` raising once and the
`None` retry succeeding yields two attempts, success, and the new token in
the final write. -/
theorem c2_witness :
    attemptsOf (submitLoop cfgEx behRetry).1 = 2 ∧
    (submitLoop cfgEx behRetry).2.2 = Except.ok "42" ∧
    (writesOf (submitLoop cfgEx behRetry).1).getLast?.map Config.token =
      some (some "NEWTOK") :=
  (c2_token_refresh cfgEx behRetry "OLDTOK" rfl rfl).2.1 "NEWTOK" "42" rfl

/-- Counterexample to claim C5 as stated: with no cached token, client
creation succeeds and `submit_job` raises, so the run fails — yet the
configuration file has been written once, and the write precedes the
`submit_job` call in the trace. -/
theorem c5_counterexample :
    (submitLoop cfgNoTok behFailSubmit).2.2 = Except.error () ∧
    writesOf (submitLoop cfgNoTok behFailSubmit).1 =
      [⟨"collab", "user", some "T1"⟩] ∧
    (submitLoop cfgNoTok behFailSubmit).1 =
      [.clientCreate none, .configWrite ⟨"collab", "user", some "T1"⟩, .submitCall] :=
  ⟨rfl, rfl, rfl⟩

/-- Claim C5 (amended): the configuration file is written exactly once per
attempt in which client creation succeeds, and that write happens
immediately before the attempt's `submit_job` call, not after it; a run
whose first attempt submits successfully therefore writes exactly once,
while a failed submission after successful client creation has already
written the file. -/
theorem c5_amended_write_per_attempt (cfg : Config)
    (beh : Option String → AttemptResult) :
    writesPrecedeSubmit (submitLoop cfg beh).1 = true ∧
    (∀ t jid, beh cfg.token = .ok t jid →
      writesOf (submitLoop cfg beh).1 = [{ cfg with token := some t }] ∧
      (submitLoop cfg beh).2.2 = Except.ok jid) ∧
    (∀ t, beh cfg.token = .submitFail t → cfg.token = none →
      (submitLoop cfg beh).2.2 = Except.error () ∧
      writesOf (submitLoop cfg beh).1 = [{ cfg with token := some t }]) := by
  cases htok : cfg.token with
  | none =>
      cases hb1 : beh none with
      | ok t1 jid1 =>
          simp [submitLoop, attemptRun, htok, hb1, writesOf, writesPrecedeSubmit]
      | clientFail =>
          simp [submitLoop, attemptRun, htok, hb1, writesOf, writesPrecedeSubmit]
      | submitFail t1 =>
          simp [submitLoop, attemptRun, htok, hb1, writesOf, writesPrecedeSubmit]
  | some s =>
      cases hb1 : beh (some s) with
      | ok t1 jid1 =>
          simp [submitLoop, attemptRun, htok, hb1, writesOf, writesPrecedeSubmit]
      | clientFail =>
          cases hb2 : beh none with
          | ok t2 jid2 =>
              simp [submitLoop, attemptRun, htok, hb1, hb2, writesOf,
                writesPrecedeSubmit]
          | clientFail =>
              simp [submitLoop, attemptRun, htok, hb1, hb2, writesOf,
                writesPrecedeSubmit]
          | submitFail t2 =>
              simp [submitLoop, attemptRun, htok, hb1, hb2, writesOf,
                writesPrecedeSubmit]
      | submitFail t1 =>
          cases hb2 : beh none with
          | ok t2 jid2 =>
              simp [submitLoop, attemptRun, htok, hb1, hb2, writesOf,
                writesPrecedeSubmit]
          | clientFail =>
              simp [submitLoop, attemptRun, htok, hb1, hb2, writesOf,
                writesPrecedeSubmit]
          | submitFail t2 =>
              simp [submitLoop, attemptRun, htok, hb1, hb2, writesOf,
                writesPrecedeSubmit]

/-- Witness for C5 (amended): a run whose first attempt succeeds writes the
configuration exactly once. -/
theorem c5_witness :
    writesOf (submitLoop cfgNoTok behOk).1 = [⟨"collab", "user", some "TOK"⟩] ∧
    (submitLoop cfgNoTok behOk).2.2 = Except.ok "7" :=
  (c5_amended_write_per_attempt cfgNoTok behOk).2.1 "TOK" "7" rfl

/-- Claim C4: whenever a run completes, its exit code is 0 exactly when the
final polled status is `finished` and 1 otherwise, and the exit code does
not depend on the retrieval-phase inputs (which entries fail to copy and
the remote executable's own return code). -/
theorem c4_exit_code (compress : List Nat → List Nat) (a : Args) (fs : FS)
    (cfg : Config) (beh : Option String → AttemptResult)
    (statuses : Nat → String) (fuel : Nat) (tmpdir : String)
    (r r' : RetrInputs) :
    (∀ st copied ec,
      (runBroker compress a fs cfg beh statuses fuel tmpdir r).2 = .done st copied ec →
      ec = if st = "finished" then 0 else 1) ∧
    exitOf (runBroker compress a fs cfg beh statuses fuel tmpdir r).2 =
      exitOf (runBroker compress a fs cfg beh statuses fuel tmpdir r').2 := by
  rcases hbf : bundleFiles compress fs a.base a.executable (a.files ++ [a.executable])
    with m | instrs
  · constructor
    · intro st copied ec h
      simp [runBroker, hbf] at h
    · simp [runBroker, hbf]
  · rcases hsl : submitLoop cfg beh with ⟨evs, cfg1, res⟩
    cases res with
    | error u =>
        constructor
        · intro st copied ec h
          simp [runBroker, hbf, hsl] at h
        · simp [runBroker, hbf, hsl]
    | ok jid =>
        rcases hpl : pollLoop statuses fuel 0 with _ | ⟨polls, st⟩
        · constructor
          · intro st copied ec h
            simp [runBroker, hbf, hsl, hpl] at h
          · simp [runBroker, hbf, hsl, hpl]
        · constructor
          · intro st' copied ec h
            simp only [runBroker, hbf, hsl, hpl, Outcome.done.injEq] at h
            obtain ⟨h1, _h2, h3⟩ := h
            subst h1
            exact h3.symm
          · simp [runBroker, hbf, hsl, hpl, exitOf]

/-- Witness for C4: the concrete successful run exits with 0, and changing
the copy failures and the remote return code leaves the exit code
unchanged. -/
theorem c4_witness :
    ((0 : Nat) = if ("finished" : String) = "finished" then 0 else 1) ∧
    exitOf (runBroker idBytes argsEx fsEx cfgEx behOk scripted 10 "cypress_t" retrEx).2 =
      exitOf (runBroker idBytes argsEx fsEx cfgEx behOk scripted 10 "cypress_t" retrEx2).2 :=
  ⟨(c4_exit_code idBytes argsEx fsEx cfgEx behOk scripted 10 "cypress_t" retrEx
      retrEx2).1 "finished" [] 0 (by rfl),
   (c4_exit_code idBytes argsEx fsEx cfgEx behOk scripted 10 "cypress_t" retrEx
      retrEx2).2⟩

/-- Claim C6: for a bundled regular file, the companion script's extraction
of the emitted payload (base64-decode then decompress) reproduces the
file's content byte-identically, the recorded mode equals the file's
`st_mode`, and the permission bits applied by `chmod` equal the file's
permission bits. -/
theorem c6_bundle_roundtrip (compress decompress : List Nat → List Nat)
    (fs : FS) (f : Path) (tar : String) (ex : Bool) (fd : FileData)
    (hf : List.lookup f fs = some fd)
    (hinv : decompress (compress fd.content) = fd.content)
    (hbyte : ∀ x ∈ compress fd.content, x < 256) :
    ∃ inst, file_script compress fs f tar ex = some inst ∧
      extractContent decompress inst.payload = fd.content ∧
      inst.mode = fd.mode ∧
      chmodMode inst.mode = chmodMode fd.mode := by
  refine ⟨⟨tar, fd.mode, b64encodeBytes (compress fd.content)⟩, ?_, ?_, rfl, rfl⟩
  · simp [file_script, hf]
  · unfold extractContent
    rw [b64_roundtrip _ hbyte, hinv]

/-- Witness for C6 at the concrete `/proj/data.txt`. -/
theorem c6_witness :
    ∃ inst, file_script idBytes fsEx ["proj", "data.txt"] "data.txt" false = some inst ∧
      extractContent idBytes inst.payload = [104, 105] ∧
      inst.mode = 420 ∧ chmodMode inst.mode = chmodMode 420 :=
  c6_bundle_roundtrip idBytes idBytes fsEx ["proj", "data.txt"] "data.txt" false
    ⟨[104, 105], 420⟩ (by rfl) rfl (by decide)

/-- Claim C7: an `--args` token resolving to an existing regular file is
rewritten to its base-relative path and any other token passes through
unchanged; in the end-to-end scenario the rewritten argument list is
`["data.txt"]` and the bundle manifest holds exactly the two instructions
`data.txt` and `run.sh`. -/
theorem c7_arg_rewriting :
    (∀ (fs : FS) (base cwd : Path) (tok : String),
      (isfile fs (resolveToken cwd tok) = true →
        rewriteArg fs base cwd tok = relpath (resolveToken cwd tok) base) ∧
      (isfile fs (resolveToken cwd tok) = false →
        rewriteArg fs base cwd tok = tok)) ∧
    rewriteArgs fsEx argsEx.base ["proj"] argsEx.argTokens = ["data.txt"] ∧
    (bundleFiles idBytes fsEx argsEx.base argsEx.executable
        (argsEx.files ++ [argsEx.executable])).map
        (List.map ExtractInstr.tar_filename) = Except.ok ["data.txt", "run.sh"] := by
  refine ⟨?_, by rfl, by rfl⟩
  intro fs base cwd tok
  constructor
  · intro h
    simp [rewriteArg, h]
  · intro h
    simp [rewriteArg, h]

/-- Witness for C7: the scenario token `data.txt` is rewritten to its
base-relative path. -/
theorem c7_witness :
    rewriteArg fsEx ["proj"] ["proj"] "data.txt" =
      relpath (resolveToken ["proj"] "data.txt") ["proj"] :=
  (c7_arg_rewriting.1 fsEx ["proj"] ["proj"] "data.txt").1 (by rfl)

theorem pyStartswith_append_append (s t u : String) :
    pyStartswith (s ++ t ++ u) s = true := by
  unfold pyStartswith
  rw [String.data_append, String.data_append, List.append_assoc]
  exact leadsOf_append_self _ _

/-- Claim C8: every member of the archive built by the companion script is
prefixed by the temporary-directory name, and extraction keeps exactly the
members whose name starts with that prefix. -/
theorem c8_archive_namespacing (tmpdir : String) (relEntries members : List String) :
    (∀ m ∈ archiveMembers tmpdir relEntries, pyStartswith m tmpdir = true) ∧
    (∀ m : String, m ∈ extractMembers tmpdir members ↔
      (m ∈ members ∧ pyStartswith m tmpdir = true)) := by
  constructor
  · intro m hm
    rcases List.mem_cons.mp hm with he | ht
    · subst he
      exact pyStartswith_self _
    · rcases List.mem_map.mp ht with ⟨e, _he, rfl⟩
      exact pyStartswith_append_append _ _ _
  · intro m
    simp [extractMembers, List.mem_filter]

/-- Witness for C8: a concrete archive member carries the prefix, and the
unprefixed member `evil` is characterised by the extraction filter. -/
theorem c8_witness :
    pyStartswith "cypress_t/out" "cypress_t" = true ∧
    ("evil" ∈ extractMembers "cypress_t" ["cypress_t/out", "evil"] ↔
      ("evil" ∈ ["cypress_t/out", "evil"] ∧ pyStartswith "evil" "cypress_t" = true)) :=
  ⟨(c8_archive_namespacing "cypress_t" ["out"] []).1 "cypress_t/out" (by decide),
   (c8_archive_namespacing "cypress_t" [] ["cypress_t/out", "evil"]).2 "evil"⟩

end Broker
